import Mathlib

/-
Verification development for the MongoNews repository
(load-json.py: batched ingestion; phase2_query.py: four analytical
operations over an article collection, sharing a top-5-with-ties
selection and a published-date normalization).

The aggregation-pipeline stages executed by the document store
($match / $project / $group / $sort, $toLower, $regexFindAll,
$dateToString, $year, $toDate) are shallowly embedded as Lean list
functions.  Strings are Lean `String`s manipulated through their
character lists; the store's ASCII $toLower and its byte-wise string
comparison are modelled character-by-character (`lowerStr`, `strLeB`).
$toDate on a string is the store's parser, an external collaborator:
it is abstracted as a function argument `parseD : String → Option
Instant`, where `none` models a null/absent result.  $group produces
its groups in an unspecified order; the embedding lists them in
first-occurrence order (`List.dedup`), which is harmless because every
observed result passes through a subsequent total sort or a key-based
extraction.  The store's $sort is modelled by `List.insertionSort`; the
fact that a $sort specification fixes its output only up to the sort
relation is captured separately by the `SortSpec` relations used for
the determinism claims.
-/

/-! ### ASCII string helpers (store semantics of $toLower and string order) -/

/-- Model of the store's ASCII `$toLower` on one character. -/
def lowerChar (c : Char) : Char :=
  if 65 ≤ c.toNat && c.toNat ≤ 90 then Char.ofNat (c.toNat + 32) else c

/-- Model of the store's ASCII `$toLower` (also of Python `str.lower` on
the ASCII inputs the handlers receive). -/
def lowerStr (s : String) : String := String.mk (s.data.map lowerChar)

/-- Characters stripped by Python `str.strip`. -/
def isSpaceChar (c : Char) : Bool :=
  c.toNat = 32 || c.toNat = 9 || c.toNat = 10 || c.toNat = 13 || c.toNat = 11 || c.toNat = 12

/-- Model of Python `str.strip`. -/
def trimStr (s : String) : String :=
  String.mk (((s.data.dropWhile isSpaceChar).reverse.dropWhile isSpaceChar).reverse)

/-- Lexicographic order on character lists by code point, the order the
store uses to sort string group keys. -/
def lexLeB : List Char → List Char → Bool
  | [], _ => true
  | _ :: _, [] => false
  | a :: as, b :: bs => if a = b then lexLeB as bs else decide (a.toNat ≤ b.toNat)

/-- String order used by the `$sort` stages on `_id`. -/
def strLeB (a b : String) : Bool := lexLeB a.data b.data

theorem char_toNat_injective {a b : Char} (h : a.toNat = b.toNat) : a = b :=
  Char.eq_of_val_eq (UInt32.ext_iff.mpr h)

theorem lexLeB_total : ∀ as bs : List Char, lexLeB as bs = true ∨ lexLeB bs as = true
  | [], _ => Or.inl rfl
  | _ :: _, [] => Or.inr rfl
  | a :: as, b :: bs => by
    by_cases hab : a = b
    · subst hab
      simpa [lexLeB] using lexLeB_total as bs
    · have hba : b ≠ a := fun h => hab h.symm
      rcases Nat.le_total a.toNat b.toNat with h | h
      · exact Or.inl (by simp [lexLeB, hab, h])
      · exact Or.inr (by simp [lexLeB, hba, h])

theorem lexLeB_trans : ∀ as bs cs : List Char,
    lexLeB as bs = true → lexLeB bs cs = true → lexLeB as cs = true
  | [], _, _, _, _ => rfl
  | _ :: _, [], _, h, _ => by simp [lexLeB] at h
  | _ :: _, _ :: _, [], _, h => by simp [lexLeB] at h
  | a :: as, b :: bs, c :: cs, h1, h2 => by
    by_cases hab : a = b <;> by_cases hbc : b = c
    · subst hab; subst hbc
      simp only [lexLeB, if_pos rfl] at h1 h2 ⊢
      exact lexLeB_trans as bs cs h1 h2
    · subst hab
      simpa [lexLeB, hbc] using h2
    · subst hbc
      simpa [lexLeB, hab] using h1
    · simp only [lexLeB, if_neg hab] at h1
      simp only [lexLeB, if_neg hbc] at h2
      have h1 : a.toNat ≤ b.toNat := of_decide_eq_true h1
      have h2 : b.toNat ≤ c.toNat := of_decide_eq_true h2
      by_cases hac : a = c
      · exfalso
        subst hac
        exact hab (char_toNat_injective (Nat.le_antisymm h1 h2))
      · simp [lexLeB, hac]
        omega

theorem lexLeB_antisymm : ∀ as bs : List Char,
    lexLeB as bs = true → lexLeB bs as = true → as = bs
  | [], [], _, _ => rfl
  | [], _ :: _, _, h => by simp [lexLeB] at h
  | _ :: _, [], h, _ => by simp [lexLeB] at h
  | a :: as, b :: bs, h1, h2 => by
    by_cases hab : a = b
    · subst hab
      simp only [lexLeB, if_pos rfl] at h1 h2
      rw [lexLeB_antisymm as bs h1 h2]
    · exfalso
      have hba : b ≠ a := fun h => hab h.symm
      simp only [lexLeB, if_neg hab] at h1
      simp only [lexLeB, if_neg hba] at h2
      exact hab (char_toNat_injective
        (Nat.le_antisymm (of_decide_eq_true h1) (of_decide_eq_true h2)))

/-! ### Grouped results, the shared sort order and Top-N-With-Ties -/

/-- One grouped result row: the `$group` key (`_id`) and its count. -/
structure Entry where
  id : String
  count : Nat
deriving DecidableEq, Repr

/-- The `$sort` order `count: -1, _id: 1` shared by Op1 and Op3:
count descending, then group key ascending. -/
def entryRank (a b : Entry) : Prop :=
  b.count < a.count ∨ (a.count = b.count ∧ strLeB a.id b.id = true)

instance : DecidableRel entryRank := fun a b => by
  unfold entryRank; infer_instance

instance : IsTotal Entry entryRank where
  total a b := by
    unfold entryRank
    rcases Nat.lt_trichotomy a.count b.count with h | h | h
    · exact Or.inr (Or.inl h)
    · rcases lexLeB_total a.id.data b.id.data with hs | hs
      · exact Or.inl (Or.inr ⟨h, hs⟩)
      · exact Or.inr (Or.inr ⟨h.symm, hs⟩)
    · exact Or.inl (Or.inl h)

instance : IsTrans Entry entryRank where
  trans a b c hab hbc := by
    unfold entryRank at *
    rcases hab with h1 | ⟨h1, hs1⟩ <;> rcases hbc with h2 | ⟨h2, hs2⟩
    · exact Or.inl (h2.trans h1)
    · exact Or.inl (h2 ▸ h1)
    · exact Or.inl (h1 ▸ h2)
    · exact Or.inr ⟨h1.trans h2, lexLeB_trans _ _ _ hs1 hs2⟩

instance : IsAntisymm Entry entryRank where
  antisymm a b hab hba := by
    unfold entryRank at *
    rcases hab with h1 | ⟨h1, hs1⟩ <;> rcases hba with h2 | ⟨h2, hs2⟩ <;>
      try omega
    have hid : a.id = b.id := by
      have h := lexLeB_antisymm a.id.data b.id.data hs1 hs2
      cases hia : a.id
      cases hib : b.id
      rw [hia, hib] at h
      simp only [] at h
      exact congrArg String.mk h
    cases a; cases b
    simp_all

/-- Model of the `$group / $sum: 1` stage: one row per distinct key with
the number of its occurrences.  The store emits groups in an
unspecified order; the embedding fixes first-occurrence order. -/
def groupCount (ks : List String) : List Entry :=
  ks.dedup.map (fun k => Entry.mk k (ks.count k))

/-- The sorted grouped result list (`$sort: count: -1, _id: 1`). -/
def sortEntries (l : List Entry) : List Entry := l.insertionSort entryRank

/-- The shared top-5-with-ties selection of Op1 and Op3
(phase2_query.py lines 86-101 and 232-247): take the first five of the
sorted list; if five exist, keep positions 1-4 and append every entry
of the full list whose count equals the 5th entry's count and whose key
is not among the first four keys. -/
def topWithTies (l : List Entry) : List Entry :=
  if h : 5 ≤ l.length then
    let fifth := l.get ⟨4, by omega⟩
    let included := (l.take 4).map (fun e => e.id)
    l.take 4 ++ l.filter (fun e => e.count == fifth.count && !(included.contains e.id))
  else
    l.take 5

example : lowerStr "BBC" = "bbc" := by decide
example : trimStr "  bbc " = "bbc" := by decide
example : topWithTies [⟨"a", 9⟩, ⟨"b", 8⟩, ⟨"c", 7⟩, ⟨"d", 3⟩, ⟨"e", 3⟩, ⟨"f", 3⟩, ⟨"g", 2⟩] =
    [⟨"a", 9⟩, ⟨"b", 8⟩, ⟨"c", 7⟩, ⟨"d", 3⟩, ⟨"e", 3⟩, ⟨"f", 3⟩] := by decide
example : topWithTies [⟨"a", 9⟩, ⟨"b", 3⟩, ⟨"c", 3⟩, ⟨"d", 3⟩, ⟨"e", 3⟩, ⟨"f", 3⟩] =
    [⟨"a", 9⟩, ⟨"b", 3⟩, ⟨"c", 3⟩, ⟨"d", 3⟩, ⟨"e", 3⟩, ⟨"f", 3⟩] := by decide
example : sortEntries [⟨"b", 2⟩, ⟨"a", 2⟩, ⟨"c", 5⟩] = [⟨"c", 5⟩, ⟨"a", 2⟩, ⟨"b", 2⟩] := by decide
example : groupCount ["x", "y", "x"] = [⟨"y", 1⟩, ⟨"x", 2⟩] := by decide

/-! ### Data model: articles and the published timestamp -/

/-- A calendar instant, as fine as the operations observe it: calendar
date plus time-of-day (any sub-day resolution folded into `timeOfDay`). -/
structure Instant where
  year : Nat
  month : Nat
  day : Nat
  timeOfDay : Nat
deriving DecidableEq, Repr

/-- The stored `published` value: a native store date, a string to be
parsed on read, or null (a JSON `null` passes ingestion's field-presence
check). -/
inductive PubVal where
  | date (i : Instant)
  | str (s : String)
  | null
deriving DecidableEq, Repr

/-- One persisted article record with the six required fields. -/
structure Article where
  id : String
  content : String
  title : String
  mediaType : String
  source : String
  published : PubVal
deriving DecidableEq, Repr

/-- The shared date normalization used by Op2, Op3 and Op4
(the `$cond` on `$type == date` with `$toDate` in the else branch):
a native date is used directly, a string goes through the store's
parser `parseD`, and null yields null (`none`). -/
def normPub (parseD : String → Option Instant) : PubVal → Option Instant
  | .date i => some i
  | .str s => parseD s
  | .null => none

/-- Model of `$dateToString` with format `%Y-%m-%d`, modelled as the calendar-day
triple (the formatted string is determined by and determines this). -/
def dayOf (i : Instant) : Nat × Nat × Nat := (i.year, i.month, i.day)

/-! ### Op1 — most common words by media type (handle_common_words) -/

/-- The character class of the tokenizing regex `[a-zA-Z0-9_-]+`. -/
def wordChar (c : Char) : Bool :=
  (97 ≤ c.toNat && c.toNat ≤ 122) || (65 ≤ c.toNat && c.toNat ≤ 90) ||
    (48 ≤ c.toNat && c.toNat ≤ 57) || c = '_' || c = '-'

/-- Left-to-right scan underlying the tokenizer: `cur` is the word
characters of the run in progress, in reverse; a run is closed (and
emitted) at the first non-word character or at the end of the text. -/
def tokenRunsAux (cur : List Char) : List Char → List (List Char)
  | [] => if cur.isEmpty then [] else [cur.reverse]
  | c :: cs =>
    if wordChar c then tokenRunsAux (c :: cur) cs
    else if cur.isEmpty then tokenRunsAux [] cs
    else cur.reverse :: tokenRunsAux [] cs

/-- Model of `$regexFindAll` with pattern `[a-zA-Z0-9_-]+`: the maximal
non-overlapping left-to-right runs of word characters. -/
def tokenRuns (l : List Char) : List (List Char) := tokenRunsAux [] l

/-- The token list of one text. -/
def tokenize (s : String) : List String := (tokenRuns s.data).map String.mk

/-- Op1 stage 1: `$match` on `$toLower: $media-type` equal to the
(already lowercased) selector. -/
def op1Matched (corpus : List Article) (sel : String) : List Article :=
  corpus.filter (fun a => lowerStr a.mediaType == sel)

/-- Op1 stages 2-4: lowercase each matching record's content (missing
content replaced by the empty string is subsumed by `content` being a
string field), tokenize, and concatenate one word-document per token. -/
def op1Words (corpus : List Article) (sel : String) : List String :=
  (op1Matched corpus sel).flatMap (fun a => tokenize (lowerStr a.content))

/-- Op1 stages 5-6: group the words, count, and sort by count
descending then word ascending. -/
def op1Results (corpus : List Article) (sel : String) : List Entry :=
  sortEntries (groupCount (op1Words corpus sel))

inductive Op1Outcome where
  | invalidInput
  | noResults
  | results (l : List Entry)
deriving DecidableEq, Repr

/-- The full Op1 handler: validate the selector, run the pipeline,
report no-results distinctly, otherwise apply the tie-aware top-5. -/
def handle_common_words (corpus : List Article) (rawInput : String) : Op1Outcome :=
  let mediaType := lowerStr (trimStr rawInput)
  if mediaType ≠ "news" ∧ mediaType ≠ "blog" then .invalidInput
  else
    let allResults := op1Results corpus mediaType
    if allResults.isEmpty then .noResults
    else .results (topWithTies allResults)

/-! ### Op2 — article count difference news vs blog (handle_article_count) -/

/-- Op2 `$match`: canonical day equal to the queried day (a null or
missing normalized date never matches) and lowercased media type among
news/blog. -/
def op2Matched (parseD : String → Option Instant) (corpus : List Article)
    (day : Nat × Nat × Nat) : List Article :=
  corpus.filter (fun a =>
    ((normPub parseD a.published).map dayOf == some day) &&
      (lowerStr a.mediaType == "news" || lowerStr a.mediaType == "blog"))

/-- Op2 `$group` on the lowercased media type. -/
def op2Groups (parseD : String → Option Instant) (corpus : List Article)
    (day : Nat × Nat × Nat) : List Entry :=
  groupCount ((op2Matched parseD corpus day).map (fun a => lowerStr a.mediaType))

inductive Op2Verdict where
  | newsMore (diff : Nat)
  | blogMore (diff : Nat)
  | tie
deriving DecidableEq, Repr

inductive Op2Outcome where
  | noArticles
  | report (news : Nat) (blog : Nat) (verdict : Op2Verdict)
deriving DecidableEq, Repr

/-- The full Op2 handler: empty group list means "no articles"; else
extract the two counts (absent group staying 0, as in the Python loop
over the group rows) and compare. -/
def handle_article_count (parseD : String → Option Instant) (corpus : List Article)
    (day : Nat × Nat × Nat) : Op2Outcome :=
  let gs := op2Groups parseD corpus day
  if gs.isEmpty then .noArticles
  else
    let nb := gs.foldl
      (fun acc e =>
        if e.id = "news" then (e.count, acc.2)
        else if e.id = "blog" then (acc.1, e.count)
        else acc)
      (0, 0)
    .report nb.1 nb.2
      (if nb.2 < nb.1 then .newsMore (nb.1 - nb.2)
       else if nb.1 < nb.2 then .blogMore (nb.2 - nb.1)
       else .tie)

/-! ### Op3 — top sources of 2015 (handle_top_sources_2015) -/

/-- Op3 `$match`: `$year` of the normalized published date equal to
2015 (null propagates and never equals 2015). -/
def op3Matched (parseD : String → Option Instant) (corpus : List Article) : List Article :=
  corpus.filter (fun a => (normPub parseD a.published).map (fun i => i.year) == some 2015)

/-- Op3: group by the raw `source` value and sort count descending,
source ascending. -/
def op3Results (parseD : String → Option Instant) (corpus : List Article) : List Entry :=
  sortEntries (groupCount ((op3Matched parseD corpus).map (fun a => a.source)))

inductive Op3Outcome where
  | noResults
  | results (l : List Entry)
deriving DecidableEq, Repr

/-- The full Op3 handler. -/
def handle_top_sources_2015 (parseD : String → Option Instant)
    (corpus : List Article) : Op3Outcome :=
  let allResults := op3Results parseD corpus
  if allResults.isEmpty then .noResults
  else .results (topWithTies allResults)

/-! ### Op4 — five most recent articles by source (handle_recent_by_source) -/

/-- The projected article shape after Op4's stages 2 and 4: title,
normalized published instant, and display day. -/
structure Op4Item where
  title : String
  publishedDate : Option Instant
  dateOnly : Option (Nat × Nat × Nat)
deriving DecidableEq, Repr

/-- Chronological order on instants (lexicographic on the calendar
components, then time of day). -/
def instLe (a b : Instant) : Prop :=
  a.year < b.year ∨ (a.year = b.year ∧
    (a.month < b.month ∨ (a.month = b.month ∧
      (a.day < b.day ∨ (a.day = b.day ∧ a.timeOfDay ≤ b.timeOfDay)))))

instance : DecidableRel instLe := fun a b => by
  unfold instLe; infer_instance

/-- The store's order on possibly-null dates: null sorts below every
date. -/
def optInstLe : Option Instant → Option Instant → Prop
  | none, _ => True
  | some _, none => False
  | some a, some b => instLe a b

instance : DecidableRel optInstLe := fun a b => by
  cases a <;> cases b <;> unfold optInstLe <;> infer_instance

/-- Op4's `$sort: publishedDate: -1`: descending by the normalized
instant and by nothing else. -/
def op4Rank (x y : Op4Item) : Prop := optInstLe y.publishedDate x.publishedDate

instance : DecidableRel op4Rank := fun a b => by
  unfold op4Rank; infer_instance

/-- Op4 `$match`: lowercased `source` equal to the lowercased query. -/
def op4Matched (corpus : List Article) (sourceLiteral : String) : List Article :=
  corpus.filter (fun a => lowerStr a.source == sourceLiteral)

/-- Op4 stages 2-4: project title / normalized instant / display day and
sort by the instant descending.  The store's sort fixes the output only
up to `op4Rank`; the embedding picks insertion sort as one conforming
execution. -/
def op4Items (parseD : String → Option Instant) (corpus : List Article)
    (sourceLiteral : String) : List Op4Item :=
  ((op4Matched corpus sourceLiteral).map
    (fun a => Op4Item.mk a.title (normPub parseD a.published)
      ((normPub parseD a.published).map dayOf))).insertionSort op4Rank

/-- Op4's tie-aware selection (phase2_query.py lines 328-350): take the
first five; if five exist and the 5th has a non-null published date,
keep positions 1-4 and append every article of the full list with that
published date whose (title, publishedDate) pair is not among the first
four; with a null 5th date, keep just the first five. -/
def op4Select (l : List Op4Item) : List Op4Item :=
  if h : 5 ≤ l.length then
    match (l.get ⟨4, by omega⟩).publishedDate with
    | none => l.take 5
    | some d =>
      let includedKeys := (l.take 4).map (fun x => (x.title, x.publishedDate))
      l.take 4 ++ l.filter (fun x =>
        x.publishedDate == some d && !(includedKeys.contains (x.title, x.publishedDate)))
  else
    l.take 5

inductive Op4Outcome where
  | emptyInput
  | notFound
  | results (l : List Op4Item)
deriving DecidableEq, Repr

/-- The full Op4 handler: strip the input, reject empty input, lowercase
it into the match literal, and run the pipeline.  (The not-found message
interpolates the raw input in the Python output; the outcome label is
what is modelled.) -/
def handle_recent_by_source (parseD : String → Option Instant) (corpus : List Article)
    (rawInput : String) : Op4Outcome :=
  let sourceName := trimStr rawInput
  if sourceName = "" then .emptyInput
  else
    let items := op4Items parseD corpus (lowerStr sourceName)
    if items.isEmpty then .notFound
    else .results (op4Select items)

example : tokenize (lowerStr "Cats. cats, CATS!") = ["cats", "cats", "cats"] := by decide
example :
    handle_common_words
      [⟨"1", "Cats. cats, CATS!", "t", "News", "s", .null⟩] "news" =
      .results [⟨"cats", 3⟩] := by decide
example :
    handle_article_count (fun _ => none)
      [⟨"1", "", "t", "NEWS", "s", .date ⟨2015, 9, 1, 0⟩⟩,
       ⟨"2", "", "t", "blog", "s", .date ⟨2015, 9, 1, 7⟩⟩,
       ⟨"3", "", "t", "blog", "s", .date ⟨2015, 9, 2, 0⟩⟩] (2015, 9, 1) =
      .report 1 1 .tie := by decide
example :
    handle_top_sources_2015 (fun _ => none)
      [⟨"1", "", "t", "news", "BBC", .date ⟨2015, 1, 1, 0⟩⟩,
       ⟨"2", "", "t", "news", "bbc", .date ⟨2015, 2, 1, 0⟩⟩,
       ⟨"3", "", "t", "news", "bbc", .date ⟨2016, 1, 1, 0⟩⟩] =
      .results [⟨"BBC", 1⟩, ⟨"bbc", 1⟩] := by decide
example :
    handle_recent_by_source (fun _ => none)
      [⟨"1", "", "t1", "news", "BBC", .date ⟨2015, 1, 1, 0⟩⟩,
       ⟨"2", "", "t2", "news", "bbc", .date ⟨2015, 2, 1, 0⟩⟩] "BBC " =
      .results [⟨"t2", some ⟨2015, 2, 1, 0⟩, some (2015, 2, 1)⟩,
                ⟨"t1", some ⟨2015, 1, 1, 0⟩, some (2015, 1, 1)⟩] := by decide

/-! ### Ingestion pipeline (load-json.py) -/

/-- The fixed batch threshold of load-json.py. -/
def BATCH_SIZE : Nat := 1000

/-- One stripped input line, as the loop sees it after `json.loads`:
blank, unparseable, or a parsed JSON object given by its field list
(values of an arbitrary type `α`). -/
inductive Line (α : Type) where
  | blank
  | badJSON
  | obj (fields : List (String × α))

/-- The six required fields of load-json.py. -/
def requiredFields : List String :=
  ["id", "content", "title", "media-type", "source", "published"]

/-- The check `all(field in document for field in required_fields)`. -/
def hasRequired (fields : List (String × α)) : Bool :=
  requiredFields.all (fun f => fields.any (fun kv => kv.1 == f))

/-- The document a line contributes: `none` for a blank line, a JSON
parse failure, or a parsed object missing a required field. -/
def lineDoc : Line α → Option (List (String × α))
  | .blank => none
  | .badJSON => none
  | .obj fields => if hasRequired fields then some fields else none

/-- The loop state of load-json.py: the in-memory batch, the running
total of bulk-inserted documents, the number of bulk-insert calls, and
the flushed batches in insertion order. -/
structure LoadState (α : Type) where
  batch : List (List (String × α))
  total : Nat
  batchCount : Nat
  flushed : List (List (List (String × α)))

/-- The flush: `insert_many(batch)` followed by the counter updates and the batch
reset. -/
def flushBatch (s : LoadState α) : LoadState α :=
  ⟨[], s.total + s.batch.length, s.batchCount + 1, s.flushed ++ [s.batch]⟩

/-- One iteration of the per-line loop: skip an invalid line and
continue; append a valid document to the batch and flush when the batch
reaches the threshold. -/
def processLine (s : LoadState α) (l : Line α) : LoadState α :=
  match lineDoc l with
  | none => s
  | some d =>
    let s2 : LoadState α := { s with batch := s.batch ++ [d] }
    if BATCH_SIZE ≤ s2.batch.length then flushBatch s2 else s2

/-- The whole ingestion run: fold the loop over the lines, then flush
the remaining partial batch if nonempty. -/
def runLoad (lines : List (Line α)) : LoadState α :=
  let s := lines.foldl processLine ⟨[], 0, 0, []⟩
  if s.batch.isEmpty then s else flushBatch s

/-- The loop invariant tying a state to the valid documents processed
so far. -/
def LoadInv (s : LoadState α) (docs : List (List (String × α))) : Prop :=
  s.flushed.flatten ++ s.batch = docs ∧
  s.flushed.map List.length = List.replicate (docs.length / BATCH_SIZE) BATCH_SIZE ∧
  s.batch.length = docs.length % BATCH_SIZE ∧
  s.total = BATCH_SIZE * (docs.length / BATCH_SIZE) ∧
  s.batchCount = docs.length / BATCH_SIZE

theorem loadInv_init : LoadInv (⟨[], 0, 0, []⟩ : LoadState α) [] := by
  refine ⟨rfl, ?_, ?_, ?_, ?_⟩ <;> simp [BATCH_SIZE]

theorem loadInv_step {s : LoadState α} {docs : List (List (String × α))}
    (h : LoadInv s docs) (l : Line α) :
    LoadInv (processLine s l) (docs ++ (lineDoc l).toList) := by
  obtain ⟨hjoin, hsizes, hbatch, htotal, hcount⟩ := h
  match hl : lineDoc l with
  | none =>
    simpa [processLine, hl] using ⟨hjoin, hsizes, hbatch, htotal, hcount⟩
  | some d =>
    simp only [processLine, hl, Option.toList_some]
    have hmod : docs.length % BATCH_SIZE < BATCH_SIZE := by
      apply Nat.mod_lt
      simp [BATCH_SIZE]
    by_cases hfull : BATCH_SIZE ≤ (s.batch ++ [d]).length
    · have h999 : docs.length % BATCH_SIZE = BATCH_SIZE - 1 := by
        simp only [List.length_append, List.length_cons, List.length_nil, hbatch] at hfull
        omega
      have hdiv : (docs.length + 1) / BATCH_SIZE = docs.length / BATCH_SIZE + 1 := by
        simp only [BATCH_SIZE] at *
        omega
      have hmod1 : (docs.length + 1) % BATCH_SIZE = 0 := by
        simp only [BATCH_SIZE] at *
        omega
      have hlen : (docs ++ [d]).length = docs.length + 1 := by simp
      have hbatchfull : (s.batch ++ [d]).length = BATCH_SIZE := by
        rw [List.length_append, hbatch, h999]
        simp [BATCH_SIZE]
      rw [if_pos hfull]
      simp only [flushBatch]
      refine ⟨?_, ?_, ?_, ?_, ?_⟩
      · show (s.flushed ++ [s.batch ++ [d]]).flatten ++ ([] : List (List (String × α))) =
          docs ++ [d]
        rw [List.append_nil, List.flatten_append, List.flatten_cons, List.flatten_nil,
          List.append_nil, ← List.append_assoc, hjoin]
      · show List.map List.length (s.flushed ++ [s.batch ++ [d]]) =
          List.replicate ((docs ++ [d]).length / BATCH_SIZE) BATCH_SIZE
        rw [List.map_append, hsizes, hlen, hdiv, List.replicate_succ']
        simp [hbatchfull]
      · show ([] : List (List (String × α))).length = (docs ++ [d]).length % BATCH_SIZE
        rw [hlen, hmod1]
        rfl
      · show s.total + (s.batch ++ [d]).length = BATCH_SIZE * ((docs ++ [d]).length / BATCH_SIZE)
        rw [htotal, hbatchfull, hlen, hdiv]
        ring
      · show s.batchCount + 1 = (docs ++ [d]).length / BATCH_SIZE
        rw [hcount, hlen, hdiv]
    · have hlt : docs.length % BATCH_SIZE + 1 < BATCH_SIZE := by
        simp only [List.length_append, List.length_cons, List.length_nil, hbatch] at hfull
        omega
      have hdiv : (docs.length + 1) / BATCH_SIZE = docs.length / BATCH_SIZE := by
        simp only [BATCH_SIZE] at *
        omega
      have hmod1 : (docs.length + 1) % BATCH_SIZE = docs.length % BATCH_SIZE + 1 := by
        simp only [BATCH_SIZE] at *
        omega
      have hlen : (docs ++ [d]).length = docs.length + 1 := by simp
      rw [if_neg hfull]
      refine ⟨?_, ?_, ?_, ?_, ?_⟩
      · show s.flushed.flatten ++ (s.batch ++ [d]) = docs ++ [d]
        rw [← List.append_assoc, hjoin]
      · show List.map List.length s.flushed =
          List.replicate ((docs ++ [d]).length / BATCH_SIZE) BATCH_SIZE
        rw [hlen, hdiv, hsizes]
      · show (s.batch ++ [d]).length = (docs ++ [d]).length % BATCH_SIZE
        rw [List.length_append, hbatch, hlen, hmod1]
        rfl
      · show s.total = BATCH_SIZE * ((docs ++ [d]).length / BATCH_SIZE)
        rw [hlen, hdiv, htotal]
      · show s.batchCount = (docs ++ [d]).length / BATCH_SIZE
        rw [hlen, hdiv, hcount]

theorem loadInv_fold {s : LoadState α} {docs : List (List (String × α))}
    (lines : List (Line α)) (h : LoadInv s docs) :
    LoadInv (lines.foldl processLine s) (docs ++ lines.filterMap lineDoc) := by
  induction lines generalizing s docs with
  | nil => simpa using h
  | cons l rest ih =>
    have hstep := loadInv_step h l
    have := ih hstep
    rw [List.foldl_cons]
    cases hl : lineDoc l with
    | none =>
      simpa [List.filterMap_cons, hl] using this
    | some d =>
      simp only [hl, Option.toList_some] at this
      simpa [List.filterMap_cons, hl, List.append_assoc] using this

theorem runLoad_inv (lines : List (Line α)) :
    LoadInv (lines.foldl processLine ⟨[], 0, 0, []⟩) (lines.filterMap lineDoc) := by
  simpa using loadInv_fold lines (loadInv_init (α := α))

/-! ### Helper lemmas on the shared selection and sorting -/

theorem contains_iff_mem {l : List String} {a : String} : l.contains a = true ↔ a ∈ l := by
  simp [List.contains, List.elem_iff]

theorem contains_pair_iff_mem {l : List (String × Option Instant)} {a : String × Option Instant} :
    l.contains a = true ↔ a ∈ l := by
  simp [List.contains, List.elem_iff]

theorem topWithTies_eq {l : List Entry} (h : 5 ≤ l.length) :
    topWithTies l = l.take 4 ++ l.filter (fun e =>
      e.count == (l.get ⟨4, by omega⟩).count &&
        !(((l.take 4).map (fun x => x.id)).contains e.id)) := by
  rw [topWithTies, dif_pos h]

theorem sortEntries_perm (l : List Entry) : (sortEntries l).Perm l :=
  List.perm_insertionSort entryRank l

theorem sortEntries_sorted (l : List Entry) : List.Sorted entryRank (sortEntries l) :=
  List.sorted_insertionSort entryRank l

theorem mem_groupCount {e : Entry} {ks : List String} :
    e ∈ groupCount ks ↔ e.id ∈ ks ∧ e.count = ks.count e.id := by
  unfold groupCount
  rw [List.mem_map]
  constructor
  · rintro ⟨k, hk, rfl⟩
    exact ⟨List.mem_dedup.mp hk, rfl⟩
  · rintro ⟨hmem, hcnt⟩
    exact ⟨e.id, List.mem_dedup.mpr hmem, by cases e; simp_all⟩

theorem groupCount_eq_nil {ks : List String} : groupCount ks = [] ↔ ks = [] := by
  unfold groupCount
  rw [List.map_eq_nil_iff, List.dedup_eq_nil]

theorem groupCount_ids_nodup (ks : List String) :
    (groupCount ks).Pairwise (fun a b => a.id ≠ b.id) := by
  unfold groupCount
  rw [List.pairwise_map]
  exact List.nodup_dedup ks

theorem sortEntries_ids_nodup {l : List Entry}
    (h : l.Pairwise (fun a b => a.id ≠ b.id)) :
    (sortEntries l).Pairwise (fun a b => a.id ≠ b.id) :=
  ((sortEntries_perm l).pairwise_iff (fun hxy => hxy.symm)).mpr h

theorem count_map_eq_countP {α : Type} (f : α → String) (l : List α) (a : String) :
    (l.map f).count a = l.countP (fun x => f x == a) := by
  induction l with
  | nil => rfl
  | cons x xs ih => simp [List.count_cons, List.countP_cons, ih]


/-! ### Claims C1, C2 — the Top-N-With-Ties selection -/

/-- Claim C1: for a sorted grouped list with more than 5 entries the
selection returns positions 1-4 in their original order followed by
every entry of the full list whose count equals the 5th entry's count
and whose identity key is not among the first four; consequently a 6th
entry tying the 5th entry's count is always included (grouped keys
being distinct), no entry key ever appears twice in the output, and the
Op4 variant obeys the same characterization with (title, publishedDate)
as the identity key when the 5th published date is non-null. -/
theorem claim_C1 :
    (∀ (l : List Entry) (h : 5 < l.length),
      topWithTies l = l.take 4 ++ l.filter (fun e =>
        e.count == (l.get ⟨4, by omega⟩).count &&
          !(((l.take 4).map (fun x => x.id)).contains e.id))) ∧
    (∀ (l : List Entry), l.Pairwise (fun a b => a.id ≠ b.id) →
      ∀ (h6 : 5 < l.length),
        (l.get ⟨5, h6⟩).count = (l.get ⟨4, by omega⟩).count →
        l.get ⟨5, h6⟩ ∈ topWithTies l) ∧
    (∀ (l : List Entry), l.Pairwise (fun a b => a.id ≠ b.id) → 5 < l.length →
      (topWithTies l).Pairwise (fun a b => a.id ≠ b.id)) ∧
    (∀ (m : List Op4Item) (d : Instant), 5 ≤ m.length →
      (∀ hp : 4 < m.length, (m.get ⟨4, hp⟩).publishedDate = some d) →
      op4Select m = m.take 4 ++ m.filter (fun x =>
        x.publishedDate == some d &&
          !(((m.take 4).map (fun y => (y.title, y.publishedDate))).contains
            (x.title, x.publishedDate)))) := by
  refine ⟨?_, ?_, ?_, ?_⟩
  · intro l h
    exact topWithTies_eq (by omega)
  · intro l hnd h6 hcnt
    rw [topWithTies_eq (by omega : 5 ≤ l.length), List.mem_append]
    right
    rw [List.mem_filter]
    refine ⟨List.get_mem l 5 h6, ?_⟩
    have hnotin : (l.get ⟨5, h6⟩).id ∉ (l.take 4).map (fun x => x.id) := by
      intro hmem
      rw [List.mem_map] at hmem
      obtain ⟨x, hx, hxid⟩ := hmem
      rw [List.mem_take_iff_getElem] at hx
      obtain ⟨i, hi, hieq⟩ := hx
      have hi4 : i < 4 := lt_of_lt_of_le hi inf_le_left
      have hil : i < l.length := by omega
      have hR := List.pairwise_iff_get.mp hnd ⟨i, hil⟩ ⟨5, h6⟩
        (by rw [Fin.mk_lt_mk]; omega)
      have hx2 : l.get ⟨i, hil⟩ = x := by
        rw [List.get_eq_getElem]
        exact hieq
      exact hR (by rw [hx2, hxid])
    simp only [Bool.and_eq_true, beq_iff_eq, Bool.not_eq_true']
    constructor
    · exact hcnt
    · rw [Bool.eq_false_iff]
      intro hc
      exact hnotin (contains_iff_mem.mp hc)
  · intro l hnd h
    rw [topWithTies_eq (by omega : 5 ≤ l.length), List.pairwise_append]
    refine ⟨List.Pairwise.sublist (List.take_sublist 4 l) hnd,
      List.Pairwise.sublist (List.filter_sublist l) hnd, ?_⟩
    intro a ha b hb
    rw [List.mem_filter] at hb
    obtain ⟨hbl, hcond⟩ := hb
    simp only [Bool.and_eq_true, Bool.not_eq_true'] at hcond
    intro heq
    have hmem : b.id ∈ (l.take 4).map (fun x => x.id) :=
      List.mem_map.mpr ⟨a, ha, heq⟩
    have hc := contains_iff_mem.mpr hmem
    rw [hcond.2] at hc
    simp at hc
  · intro m d h5 hd
    unfold op4Select
    rw [dif_pos h5, hd]

def exTies : List Entry :=
  [⟨"a", 9⟩, ⟨"b", 8⟩, ⟨"c", 7⟩, ⟨"d", 3⟩, ⟨"e", 3⟩, ⟨"f", 3⟩, ⟨"g", 2⟩]

def exRecent : List Op4Item :=
  [⟨"t1", some ⟨2015, 9, 9, 0⟩, some (2015, 9, 9)⟩,
   ⟨"t2", some ⟨2015, 9, 8, 0⟩, some (2015, 9, 8)⟩,
   ⟨"t3", some ⟨2015, 9, 7, 0⟩, some (2015, 9, 7)⟩,
   ⟨"t4", some ⟨2015, 9, 6, 0⟩, some (2015, 9, 6)⟩,
   ⟨"t5", some ⟨2015, 9, 5, 0⟩, some (2015, 9, 5)⟩,
   ⟨"t6", some ⟨2015, 9, 5, 0⟩, some (2015, 9, 5)⟩]

theorem claim_C1_witness :
    topWithTies exTies = exTies.take 4 ++ exTies.filter (fun e =>
      e.count == (exTies.get ⟨4, by decide⟩).count &&
        !(((exTies.take 4).map (fun x => x.id)).contains e.id)) ∧
    (⟨"f", 3⟩ : Entry) ∈ topWithTies exTies ∧
    (topWithTies exTies).Pairwise (fun a b => a.id ≠ b.id) ∧
    op4Select exRecent = exRecent.take 4 ++ exRecent.filter (fun x =>
      x.publishedDate == some ⟨2015, 9, 5, 0⟩ &&
        !(((exRecent.take 4).map (fun y => (y.title, y.publishedDate))).contains
          (x.title, x.publishedDate))) := by
  refine ⟨claim_C1.1 exTies (by decide), ?_,
    claim_C1.2.2.1 exTies (by decide) (by decide),
    claim_C1.2.2.2 exRecent ⟨2015, 9, 5, 0⟩ (by decide) (fun hp => rfl)⟩
  exact claim_C1.2.1 exTies (by decide) (by decide) (by decide)

/-- Claim C2: with at most five grouped entries (grouped keys being
distinct) the selection returns the whole sorted list unchanged — in
particular with exactly five entries the output is exactly those five
in sorted order and no tie expansion happens. -/
theorem claim_C2 (l : List Entry) (hids : l.Pairwise (fun a b => a.id ≠ b.id))
    (hlen : l.length ≤ 5) : topWithTies l = l := by
  by_cases h5 : l.length = 5
  · rcases l with _ | ⟨a, _ | ⟨b, _ | ⟨c, _ | ⟨d, _ | ⟨e, _ | ⟨f, rest⟩⟩⟩⟩⟩⟩
    · simp only [List.length_nil] at h5; omega
    · simp only [List.length_cons, List.length_nil] at h5; omega
    · simp only [List.length_cons, List.length_nil] at h5; omega
    · simp only [List.length_cons, List.length_nil] at h5; omega
    · simp only [List.length_cons, List.length_nil] at h5; omega
    · simp only [List.pairwise_cons, List.forall_mem_cons, List.forall_mem_nil] at hids
      obtain ⟨⟨hab, hac, had, hae, -⟩, ⟨hbc, hbd, hbe, -⟩, ⟨hcd, hce, -⟩, ⟨hde, -⟩, -⟩ := hids
      rw [topWithTies_eq (by simp)]
      show [a, b, c, d] ++ List.filter
        (fun x => x.count == e.count && !(([a.id, b.id, c.id, d.id] : List String).contains x.id))
        [a, b, c, d, e] = [a, b, c, d, e]
      simp [List.filter_cons, Ne.symm hae, Ne.symm hbe, Ne.symm hce, Ne.symm hde]
    · simp only [List.length_cons] at h5; omega
  · rw [topWithTies, dif_neg (by omega)]
    exact List.take_of_length_le (by omega)

theorem claim_C2_witness :
    topWithTies [⟨"a", 9⟩, ⟨"b", 8⟩, ⟨"c", 7⟩, ⟨"d", 3⟩, ⟨"e", 3⟩] =
      [⟨"a", 9⟩, ⟨"b", 8⟩, ⟨"c", 7⟩, ⟨"d", 3⟩, ⟨"e", 3⟩] :=
  claim_C2 _ (by decide) (by decide)

/-! ### Claim C10 — Op4 with a null 5th published date -/

/-- Claim C10: when at least five articles match in Op4 and the article
at position 5 has a null/missing normalized published value, no tie
expansion happens and exactly the first five articles of the sorted
list are returned. -/
theorem claim_C10 (l : List Op4Item) (h5 : 5 ≤ l.length)
    (hnull : ∀ hp : 4 < l.length, (l.get ⟨4, hp⟩).publishedDate = none) :
    op4Select l = l.take 5 := by
  unfold op4Select
  rw [dif_pos h5, hnull]

theorem claim_C10_witness :
    op4Select [⟨"t1", some ⟨2015, 9, 9, 0⟩, some (2015, 9, 9)⟩,
               ⟨"t2", some ⟨2015, 9, 8, 0⟩, some (2015, 9, 8)⟩,
               ⟨"t3", none, none⟩,
               ⟨"t4", none, none⟩,
               ⟨"t5", none, none⟩,
               ⟨"t6", none, none⟩] =
      [⟨"t1", some ⟨2015, 9, 9, 0⟩, some (2015, 9, 9)⟩,
       ⟨"t2", some ⟨2015, 9, 8, 0⟩, some (2015, 9, 8)⟩,
       ⟨"t3", none, none⟩, ⟨"t4", none, none⟩, ⟨"t5", none, none⟩] :=
  claim_C10 _ (by decide) (fun hp => rfl)

/-! ### Claim C9 — determinism of the sorted lists -/

/-- What the store guarantees for the Op1/Op3 sort stage
(`count: -1, _id: 1`): any response is a permutation of the grouped
rows sorted by `entryRank`. -/
def EntrySortSpec (input output : List Entry) : Prop :=
  output.Perm input ∧ List.Sorted entryRank output

/-- What the store guarantees for Op4's sort stage
(`publishedDate: -1`, with no secondary key): any response is a
permutation of the projected articles sorted by `op4Rank`. -/
def Op4SortSpec (input output : List Op4Item) : Prop :=
  output.Perm input ∧ List.Sorted op4Rank output

/-- Claim C9 counterexample: Op4's sort specification orders by the
normalized instant alone, so it does not determine the relative order
of two articles sharing an instant — two conforming runs may disagree,
refuting the claimed total order and run-to-run determinism for Op4. -/
theorem claim_C9_counterexample :
    ¬ (∀ (input o1 o2 : List Op4Item),
        Op4SortSpec input o1 → Op4SortSpec input o2 → o1 = o2) := by
  intro h
  have hA : Op4SortSpec
      [⟨"A", some ⟨2015, 1, 1, 0⟩, some (2015, 1, 1)⟩,
       ⟨"B", some ⟨2015, 1, 1, 0⟩, some (2015, 1, 1)⟩]
      [⟨"A", some ⟨2015, 1, 1, 0⟩, some (2015, 1, 1)⟩,
       ⟨"B", some ⟨2015, 1, 1, 0⟩, some (2015, 1, 1)⟩] := by
    refine ⟨List.Perm.refl _, ?_⟩
    simp [List.sorted_cons, op4Rank, optInstLe, instLe]
  have hB : Op4SortSpec
      [⟨"A", some ⟨2015, 1, 1, 0⟩, some (2015, 1, 1)⟩,
       ⟨"B", some ⟨2015, 1, 1, 0⟩, some (2015, 1, 1)⟩]
      [⟨"B", some ⟨2015, 1, 1, 0⟩, some (2015, 1, 1)⟩,
       ⟨"A", some ⟨2015, 1, 1, 0⟩, some (2015, 1, 1)⟩] := by
    refine ⟨List.Perm.swap _ _ _, ?_⟩
    simp [List.sorted_cons, op4Rank, optInstLe, instLe]
  have heq := h _ _ _ hA hB
  exact absurd heq (by decide)

/-- Claim C9 amended: the lists handed to Top-N-With-Ties by Op1 and
Op3 are sorted by count descending then group key ascending, a total
order, so they are uniquely determined by the store contents and two
conforming runs return the identical ranked list (the embedding's
`sortEntries` being that unique list); Op4's sort, by the normalized
instant alone, leaves the relative order of articles sharing an
instant undetermined. -/
theorem claim_C9_amended :
    (∀ (input o1 o2 : List Entry),
      EntrySortSpec input o1 → EntrySortSpec input o2 → o1 = o2) ∧
    (∀ l : List Entry, EntrySortSpec l (sortEntries l)) := by
  constructor
  · rintro input o1 o2 ⟨hp1, hs1⟩ ⟨hp2, hs2⟩
    exact List.eq_of_perm_of_sorted (hp1.trans hp2.symm) hs1 hs2
  · intro l
    exact ⟨sortEntries_perm l, sortEntries_sorted l⟩

theorem claim_C9_amended_witness :
    sortEntries [⟨"b", 2⟩, ⟨"a", 2⟩] = [⟨"a", 2⟩, ⟨"b", 2⟩] :=
  claim_C9_amended.1 [⟨"b", 2⟩, ⟨"a", 2⟩] (sortEntries [⟨"b", 2⟩, ⟨"a", 2⟩])
    [⟨"a", 2⟩, ⟨"b", 2⟩] (claim_C9_amended.2 _)
    ⟨List.Perm.swap _ _ _, by simp [List.sorted_cons, entryRank]; decide⟩

/-! ### Claims C3, C8 — ingestion batching and per-line error handling -/

/-- Claim C3: for a stream of N valid records with threshold 1000,
ingestion makes exactly ceil(N/1000) bulk-insert calls, every flushed
batch except a final partial one has exactly 1000 records, the final
batch has N mod 1000 records when that is nonzero, and the reported
total equals N, the sum of the flushed batch sizes. -/
theorem claim_C3 {α : Type} (lines : List (Line α))
    (hvalid : ∀ l ∈ lines, (lineDoc l).isSome = true) :
    (runLoad lines).batchCount = (lines.length + BATCH_SIZE - 1) / BATCH_SIZE ∧
    (runLoad lines).flushed.map List.length =
      List.replicate (lines.length / BATCH_SIZE) BATCH_SIZE ++
        (if lines.length % BATCH_SIZE = 0 then [] else [lines.length % BATCH_SIZE]) ∧
    (runLoad lines).total = lines.length ∧
    ((runLoad lines).flushed.map List.length).sum = lines.length := by
  have hlen : (lines.filterMap lineDoc).length = lines.length := by
    induction lines with
    | nil => rfl
    | cons l rest ih =>
      have hv := hvalid l (List.mem_cons_self l rest)
      rw [List.filterMap_cons]
      cases hl : lineDoc l with
      | none => rw [hl] at hv; simp at hv
      | some d =>
        simp only [List.length_cons]
        rw [ih (fun x hx => hvalid x (List.mem_cons_of_mem _ hx))]
  obtain ⟨hjoin, hsizes, hbatch, htotal, hcount⟩ := runLoad_inv lines
  rw [hlen] at hsizes hbatch htotal hcount
  have hrun : runLoad lines =
      if (lines.foldl processLine (⟨[], 0, 0, []⟩ : LoadState α)).batch.isEmpty then
        lines.foldl processLine (⟨[], 0, 0, []⟩ : LoadState α)
      else flushBatch (lines.foldl processLine (⟨[], 0, 0, []⟩ : LoadState α)) := rfl
  by_cases hz : lines.length % BATCH_SIZE = 0
  · have hempty : (lines.foldl processLine (⟨[], 0, 0, []⟩ : LoadState α)).batch.isEmpty = true :=
      List.isEmpty_iff_length_eq_zero.mpr (by omega)
    rw [hrun, if_pos hempty]
    refine ⟨?_, ?_, ?_, ?_⟩
    · rw [hcount]
      simp only [BATCH_SIZE] at *
      omega
    · rw [hsizes, if_pos hz, List.append_nil]
    · rw [htotal]
      simp only [BATCH_SIZE] at *
      omega
    · rw [hsizes, List.sum_replicate, smul_eq_mul]
      simp only [BATCH_SIZE] at *
      omega
  · have hnonempty : (lines.foldl processLine (⟨[], 0, 0, []⟩ : LoadState α)).batch.isEmpty = false := by
      rw [Bool.eq_false_iff]
      intro ht
      rw [List.isEmpty_iff_length_eq_zero] at ht
      omega
    rw [hrun, if_neg (by rw [hnonempty]; exact Bool.false_ne_true)]
    refine ⟨?_, ?_, ?_, ?_⟩
    · show (lines.foldl processLine (⟨[], 0, 0, []⟩ : LoadState α)).batchCount + 1 = _
      rw [hcount]
      simp only [BATCH_SIZE] at *
      omega
    · show List.map List.length ((lines.foldl processLine (⟨[], 0, 0, []⟩ : LoadState α)).flushed ++
        [(lines.foldl processLine (⟨[], 0, 0, []⟩ : LoadState α)).batch]) = _
      rw [List.map_append, hsizes, if_neg hz]
      simp [hbatch]
    · show (lines.foldl processLine (⟨[], 0, 0, []⟩ : LoadState α)).total +
        (lines.foldl processLine (⟨[], 0, 0, []⟩ : LoadState α)).batch.length = _
      rw [htotal, hbatch]
      simp only [BATCH_SIZE] at *
      omega
    · show (List.map List.length ((lines.foldl processLine (⟨[], 0, 0, []⟩ : LoadState α)).flushed ++
        [(lines.foldl processLine (⟨[], 0, 0, []⟩ : LoadState α)).batch])).sum = _
      rw [List.map_append, hsizes]
      simp only [List.map_cons, List.map_nil, List.sum_append, List.sum_replicate, smul_eq_mul,
        List.sum_cons, List.sum_nil, hbatch]
      simp only [BATCH_SIZE] at *
      omega

def exLines : List (Line Nat) :=
  List.replicate 3 (Line.obj
    [("id", 1), ("content", 2), ("title", 3), ("media-type", 4), ("source", 5), ("published", 6)])

theorem claim_C3_witness :
    (runLoad exLines).batchCount = (exLines.length + BATCH_SIZE - 1) / BATCH_SIZE ∧
    (runLoad exLines).flushed.map List.length =
      List.replicate (exLines.length / BATCH_SIZE) BATCH_SIZE ++
        (if exLines.length % BATCH_SIZE = 0 then [] else [exLines.length % BATCH_SIZE]) ∧
    (runLoad exLines).total = exLines.length ∧
    ((runLoad exLines).flushed.map List.length).sum = exLines.length :=
  claim_C3 exLines (by decide)

/-- Claim C8: a line that fails JSON parsing or lacks a required field
contributes no document, leaves the loop state unchanged (processing
continues with the next line, never aborting), and only — and all —
records carrying the six required fields end up bulk-inserted, in
order. -/
theorem claim_C8 {α : Type} (lines : List (Line α)) :
    (runLoad lines).flushed.flatten = lines.filterMap lineDoc ∧
    (∀ (s : LoadState α) (l : Line α), lineDoc l = none → processLine s l = s) ∧
    lineDoc (Line.badJSON : Line α) = none ∧
    (∀ (fields : List (String × α)) (f : String), f ∈ requiredFields →
      (∀ kv ∈ fields, kv.1 ≠ f) → lineDoc (Line.obj fields) = none) ∧
    (∀ fields : List (String × α), hasRequired fields = true →
      lineDoc (Line.obj fields) = some fields) := by
  refine ⟨?_, ?_, rfl, ?_, ?_⟩
  · obtain ⟨hjoin, -, -, -, -⟩ := runLoad_inv lines
    have hrun : runLoad lines =
        if (lines.foldl processLine (⟨[], 0, 0, []⟩ : LoadState α)).batch.isEmpty then
          lines.foldl processLine (⟨[], 0, 0, []⟩ : LoadState α)
        else flushBatch (lines.foldl processLine (⟨[], 0, 0, []⟩ : LoadState α)) := rfl
    rw [hrun]
    by_cases hb : (lines.foldl processLine (⟨[], 0, 0, []⟩ : LoadState α)).batch.isEmpty
    · rw [if_pos hb]
      rw [List.isEmpty_iff] at hb
      rw [hb, List.append_nil] at hjoin
      exact hjoin
    · rw [if_neg hb]
      show ((lines.foldl processLine (⟨[], 0, 0, []⟩ : LoadState α)).flushed ++
        [(lines.foldl processLine (⟨[], 0, 0, []⟩ : LoadState α)).batch]).flatten = _
      rw [List.flatten_append, List.flatten_cons, List.flatten_nil, List.append_nil]
      exact hjoin
  · intro s l hl
    unfold processLine
    rw [hl]
  · intro fields f hf hnone
    show (if hasRequired fields = true then some fields else none) = none
    rw [if_neg]
    intro hreq
    unfold hasRequired at hreq
    rw [List.all_eq_true] at hreq
    have hany := hreq f hf
    rw [List.any_eq_true] at hany
    obtain ⟨kv, hkv, hbeq⟩ := hany
    exact hnone kv hkv (by simpa using hbeq)
  · intro fields hreq
    show (if hasRequired fields = true then some fields else none) = some fields
    rw [if_pos hreq]

def exMixedLines : List (Line Nat) :=
  [Line.badJSON, Line.blank,
   Line.obj [("id", 1), ("content", 2), ("title", 3), ("media-type", 4),
     ("source", 5), ("published", 6)],
   Line.obj [("id", 1)],
   Line.obj [("id", 1), ("content", 2), ("title", 3), ("media-type", 4),
     ("source", 5), ("published", 6)]]

theorem claim_C8_witness :
    (runLoad exMixedLines).flushed.flatten = exMixedLines.filterMap lineDoc ∧
    processLine (⟨[], 0, 0, []⟩ : LoadState Nat) Line.badJSON = ⟨[], 0, 0, []⟩ ∧
    lineDoc (Line.obj [(("id" : String), (1 : Nat))]) = none := by
  have h := claim_C8 exMixedLines
  exact ⟨h.1, h.2.1 _ _ rfl, h.2.2.2.1 [("id", 1)] "content" (by decide) (by decide)⟩

/-! ### Claim C4 — date-representation equivalence -/

/-- Two stored `published` values that are identical, or that are the
native and parseable-string representations of the same instant. -/
def PubAgrees (parseD : String → Option Instant) (p q : PubVal) : Prop :=
  p = q ∨
  (∃ t s, p = PubVal.date t ∧ q = PubVal.str s ∧ parseD s = some t) ∨
  (∃ t s, q = PubVal.date t ∧ p = PubVal.str s ∧ parseD s = some t)

/-- Two article records identical except possibly for the
representation of `published`. -/
def ArticleAgrees (parseD : String → Option Instant) (a b : Article) : Prop :=
  a.id = b.id ∧ a.content = b.content ∧ a.title = b.title ∧
  a.mediaType = b.mediaType ∧ a.source = b.source ∧
  PubAgrees parseD a.published b.published

theorem normPub_eq_of_agrees {parseD : String → Option Instant} {p q : PubVal}
    (h : PubAgrees parseD p q) : normPub parseD p = normPub parseD q := by
  rcases h with rfl | ⟨t, s, rfl, rfl, hp⟩ | ⟨t, s, rfl, rfl, hp⟩
  · rfl
  · simp [normPub, hp]
  · simp [normPub, hp]

theorem filter_map_congr_of_forall₂ {β : Type} {R : Article → Article → Prop}
    {c1 c2 : List Article} (h : List.Forall₂ R c1 c2)
    (f : Article → Bool) (g : Article → β)
    (hf : ∀ a b, R a b → f a = f b) (hg : ∀ a b, R a b → g a = g b) :
    (c1.filter f).map g = (c2.filter f).map g := by
  induction h with
  | nil => rfl
  | @cons a b l1 l2 hab htail ih =>
    rw [List.filter_cons, List.filter_cons, ← hf a b hab]
    by_cases hfa : f a = true
    · rw [if_pos hfa, if_pos hfa, List.map_cons, List.map_cons, hg a b hab, ih]
    · rw [if_neg hfa, if_neg hfa, ih]

/-- Claim C4: two corpora identical except that `published` is stored
natively in one and as the equivalent parseable string in the other
yield identical Op2, Op3 and Op4 results, because each operation reads
`published` only through the shared normalization. -/
theorem claim_C4 (parseD : String → Option Instant) (c1 c2 : List Article)
    (h : List.Forall₂ (ArticleAgrees parseD) c1 c2)
    (day : Nat × Nat × Nat) (rawSrc : String) :
    handle_article_count parseD c1 day = handle_article_count parseD c2 day ∧
    handle_top_sources_2015 parseD c1 = handle_top_sources_2015 parseD c2 ∧
    handle_recent_by_source parseD c1 rawSrc = handle_recent_by_source parseD c2 rawSrc := by
  have hop2 : (op2Matched parseD c1 day).map (fun a => lowerStr a.mediaType) =
      (op2Matched parseD c2 day).map (fun a => lowerStr a.mediaType) :=
    filter_map_congr_of_forall₂ h _ _
      (fun a b hab => by
        simp only [normPub_eq_of_agrees hab.2.2.2.2.2, hab.2.2.2.1])
      (fun a b hab => by simp only [hab.2.2.2.1])
  have hop3 : (op3Matched parseD c1).map (fun a => a.source) =
      (op3Matched parseD c2).map (fun a => a.source) :=
    filter_map_congr_of_forall₂ h _ _
      (fun a b hab => by simp only [normPub_eq_of_agrees hab.2.2.2.2.2])
      (fun a b hab => hab.2.2.2.2.1)
  refine ⟨?_, ?_, ?_⟩
  · have hg2 : op2Groups parseD c1 day = op2Groups parseD c2 day :=
      congrArg groupCount hop2
    unfold handle_article_count
    rw [hg2]
  · have hres3 : op3Results parseD c1 = op3Results parseD c2 := by
      unfold op3Results
      rw [hop3]
    unfold handle_top_sources_2015
    rw [hres3]
  · have hop4 : op4Items parseD c1 (lowerStr (trimStr rawSrc)) =
        op4Items parseD c2 (lowerStr (trimStr rawSrc)) := by
      have hmf := filter_map_congr_of_forall₂ h
        (fun a => lowerStr a.source == lowerStr (trimStr rawSrc))
        (fun a => Op4Item.mk a.title (normPub parseD a.published)
          ((normPub parseD a.published).map dayOf))
        (fun a b hab => by simp only [hab.2.2.2.2.1])
        (fun a b hab => by
          simp only [hab.2.2.1, normPub_eq_of_agrees hab.2.2.2.2.2])
      unfold op4Items op4Matched
      rw [hmf]
    unfold handle_recent_by_source
    by_cases he : trimStr rawSrc = ""
    · rw [if_pos he, if_pos he]
    · rw [if_neg he, if_neg he, hop4]

def parseDex : String → Option Instant :=
  fun s => if s = "2015-03-04" then some ⟨2015, 3, 4, 0⟩ else none

def exCorpusNative : List Article :=
  [⟨"1", "", "t", "news", "S", .date ⟨2015, 3, 4, 0⟩⟩]

def exCorpusString : List Article :=
  [⟨"1", "", "t", "news", "S", .str "2015-03-04"⟩]

theorem claim_C4_witness :
    handle_article_count parseDex exCorpusNative (2015, 3, 4) =
      handle_article_count parseDex exCorpusString (2015, 3, 4) ∧
    handle_top_sources_2015 parseDex exCorpusNative =
      handle_top_sources_2015 parseDex exCorpusString ∧
    handle_recent_by_source parseDex exCorpusNative "S" =
      handle_recent_by_source parseDex exCorpusString "S" := by
  refine claim_C4 parseDex _ _ ?_ (2015, 3, 4) "S"
  refine List.Forall₂.cons ?_ List.Forall₂.nil
  unfold ArticleAgrees PubAgrees
  exact ⟨rfl, rfl, rfl, rfl, rfl,
    Or.inr (Or.inl ⟨⟨2015, 3, 4, 0⟩, "2015-03-04", rfl, rfl, by decide⟩)⟩

/-! ### Claim C5 — Op1 tokenization, aggregation and ordering -/

theorem tokenRunsAux_wordChar (l : List Char) :
    ∀ cur : List Char, cur.all wordChar = true →
      ∀ t ∈ tokenRunsAux cur l, t ≠ [] ∧ t.all wordChar = true := by
  induction l with
  | nil =>
    intro cur hcur t ht
    unfold tokenRunsAux at ht
    by_cases hc : cur.isEmpty = true
    · rw [if_pos hc] at ht
      simp at ht
    · rw [if_neg hc] at ht
      rw [List.mem_singleton] at ht
      subst ht
      refine ⟨?_, by simpa using hcur⟩
      intro hrev
      exact hc (List.isEmpty_iff.mpr (List.reverse_eq_nil_iff.mp hrev))
  | cons c cs ih =>
    intro cur hcur t ht
    unfold tokenRunsAux at ht
    by_cases hw : wordChar c = true
    · rw [if_pos hw] at ht
      exact ih (c :: cur) (by simp [hcur, hw]) t ht
    · rw [if_neg hw] at ht
      by_cases hc : cur.isEmpty = true
      · rw [if_pos hc] at ht
        exact ih [] rfl t ht
      · rw [if_neg hc] at ht
        rcases List.mem_cons.mp ht with rfl | ht2
        · refine ⟨?_, by simpa using hcur⟩
          intro hrev
          exact hc (List.isEmpty_iff.mpr (List.reverse_eq_nil_iff.mp hrev))
        · exact ih [] rfl t ht2

theorem tokenize_shape (s : String) :
    ∀ t ∈ tokenize s, t.data ≠ [] ∧ t.data.all wordChar = true := by
  intro t ht
  unfold tokenize tokenRuns at ht
  rw [List.mem_map] at ht
  obtain ⟨r, hr, rfl⟩ := ht
  exact tokenRunsAux_wordChar s.data [] rfl r hr

def exC5 : List Article :=
  [⟨"1", "Cats. cats, CATS!", "t", "News", "s", PubVal.null⟩]

/-- Claim C5: Op1 lowercases each matching record's content and splits
it into maximal runs of letters, digits, underscore and hyphen (every
token is a nonempty all-word-character string, and empty content yields
no tokens); each group's count is the token's number of occurrences
aggregated across all matching records; groups are ordered by count
descending then token ascending; and the content "Cats. cats, CATS!"
under a matching media type yields the single token `cats` with
count 3. -/
theorem claim_C5 (corpus : List Article) (sel : String) :
    tokenize "" = [] ∧
    (∀ s t : String, t ∈ tokenize s → t.data ≠ [] ∧ t.data.all wordChar = true) ∧
    handle_common_words exC5 "news" = .results [⟨"cats", 3⟩] ∧
    (∀ e ∈ op1Results corpus sel, e.count = (op1Words corpus sel).count e.id) ∧
    List.Sorted entryRank (op1Results corpus sel) := by
  refine ⟨rfl, ?_, by decide, ?_, sortEntries_sorted _⟩
  · intro s t ht
    exact tokenize_shape s t ht
  · intro e he
    have hmem := (sortEntries_perm (groupCount (op1Words corpus sel))).mem_iff.mp he
    exact (mem_groupCount.mp hmem).2

theorem claim_C5_witness :
    tokenize "" = [] ∧
    (("cats" : String).data ≠ [] ∧ ("cats" : String).data.all wordChar = true) ∧
    handle_common_words exC5 "news" = .results [⟨"cats", 3⟩] ∧
    (⟨"cats", 3⟩ : Entry).count = (op1Words exC5 "news").count "cats" := by
  have h := claim_C5 exC5 "news"
  exact ⟨h.1, h.2.1 (lowerStr "Cats. cats, CATS!") "cats" (by decide), h.2.2.1,
    h.2.2.2.1 ⟨"cats", 3⟩ (by decide)⟩

/-! ### Claim C6 — case sensitivity: Op3 raw grouping vs Op1/Op4 filters -/

/-- Claim C6: Op3 groups on the raw stored `source`, so "BBC" and
"bbc" published in 2015 form two distinct groups with separate counts,
while Op1's media-type filter matches case-insensitively (records with
media-type "NEWS" or "news" are both selected by the "news" query) and
Op4's handler lowercases the query so "BBC" and "bbc" run the identical
selection. -/
theorem claim_C6 (parseD : String → Option Instant) (corpus : List Article) :
    op3Results (fun _ => none)
      [⟨"1", "", "t", "news", "BBC", .date ⟨2015, 1, 1, 0⟩⟩,
       ⟨"2", "", "t", "news", "bbc", .date ⟨2015, 2, 1, 0⟩⟩] =
      [⟨"BBC", 1⟩, ⟨"bbc", 1⟩] ∧
    (∀ a : Article, (a.mediaType = "NEWS" ∨ a.mediaType = "news") → a ∈ corpus →
      a ∈ op1Matched corpus "news") ∧
    handle_recent_by_source parseD corpus "BBC" =
      handle_recent_by_source parseD corpus "bbc" := by
  refine ⟨by decide, ?_, ?_⟩
  · intro a ha hmem
    unfold op1Matched
    rw [List.mem_filter]
    refine ⟨hmem, ?_⟩
    rcases ha with h | h <;> rw [h] <;> decide
  · unfold handle_recent_by_source
    have h1 : trimStr "BBC" = "BBC" := by decide
    have h2 : trimStr "bbc" = "bbc" := by decide
    have h3 : lowerStr "BBC" = "bbc" := by decide
    have h4 : lowerStr "bbc" = "bbc" := by decide
    dsimp only
    rw [h1, h2, h3, h4, if_neg (by decide : ¬("BBC" : String) = ""),
      if_neg (by decide : ¬("bbc" : String) = "")]

theorem claim_C6_witness :
    (⟨"x", "", "t", "NEWS", "s", PubVal.null⟩ : Article) ∈
      op1Matched [⟨"x", "", "t", "NEWS", "s", PubVal.null⟩] "news" ∧
    handle_recent_by_source (fun _ => none)
        [⟨"1", "", "t1", "news", "BbC", PubVal.date ⟨2015, 1, 1, 0⟩⟩] "BBC" =
      handle_recent_by_source (fun _ => none)
        [⟨"1", "", "t1", "news", "BbC", PubVal.date ⟨2015, 1, 1, 0⟩⟩] "bbc" :=
  ⟨(claim_C6 (fun _ => none) [⟨"x", "", "t", "NEWS", "s", PubVal.null⟩]).2.1 _
      (Or.inl rfl) (by decide),
    (claim_C6 (fun _ => none)
      [⟨"1", "", "t1", "news", "BbC", PubVal.date ⟨2015, 1, 1, 0⟩⟩]).2.2⟩

/-! ### Claim C7 — Op2 outcome classification -/

theorem foldNB_spec (cnt : String → Nat) :
    ∀ (ds : List String) (acc : Nat × Nat),
      (ds.map (fun k => Entry.mk k (cnt k))).foldl
        (fun acc e =>
          if e.id = "news" then (e.count, acc.2)
          else if e.id = "blog" then (acc.1, e.count)
          else acc) acc =
      ((if "news" ∈ ds then cnt "news" else acc.1),
       (if "blog" ∈ ds then cnt "blog" else acc.2)) := by
  intro ds
  induction ds with
  | nil => intro acc; simp
  | cons d rest ih =>
    intro acc
    rw [List.map_cons, List.foldl_cons, ih]
    by_cases hdn : d = "news"
    · subst hdn
      have hbn : ¬("blog" : String) = "news" := by decide
      simp [List.mem_cons, hbn]
    · by_cases hdb : d = "blog"
      · subst hdb
        have hnb : ¬("news" : String) = "blog" := by decide
        simp [List.mem_cons, hnb]
      · simp [List.mem_cons, hdn, hdb, Ne.symm hdn, Ne.symm hdb]

/-- The number of matching news records of the queried day. -/
def op2NewsCount (parseD : String → Option Instant) (corpus : List Article)
    (day : Nat × Nat × Nat) : Nat :=
  (op2Matched parseD corpus day).countP (fun a => lowerStr a.mediaType == "news")

/-- The number of matching blog records of the queried day. -/
def op2BlogCount (parseD : String → Option Instant) (corpus : List Article)
    (day : Nat × Nat × Nat) : Nat :=
  (op2Matched parseD corpus day).countP (fun a => lowerStr a.mediaType == "blog")

theorem op2_fold_counts (parseD : String → Option Instant) (corpus : List Article)
    (day : Nat × Nat × Nat) :
    (op2Groups parseD corpus day).foldl
      (fun acc e =>
        if e.id = "news" then (e.count, acc.2)
        else if e.id = "blog" then (acc.1, e.count)
        else acc) ((0 : Nat), (0 : Nat)) =
    (op2NewsCount parseD corpus day, op2BlogCount parseD corpus day) := by
  unfold op2Groups groupCount
  rw [foldNB_spec]
  have hn : (if "news" ∈ ((op2Matched parseD corpus day).map
        (fun a => lowerStr a.mediaType)).dedup then
        ((op2Matched parseD corpus day).map (fun a => lowerStr a.mediaType)).count "news"
      else 0) = op2NewsCount parseD corpus day := by
    unfold op2NewsCount
    rw [← count_map_eq_countP]
    by_cases hmem : "news" ∈ ((op2Matched parseD corpus day).map
      (fun a => lowerStr a.mediaType)).dedup
    · rw [if_pos hmem]
    · rw [if_neg hmem,
        List.count_eq_zero.mpr (fun hh => hmem (List.mem_dedup.mpr hh))]
  have hb : (if "blog" ∈ ((op2Matched parseD corpus day).map
        (fun a => lowerStr a.mediaType)).dedup then
        ((op2Matched parseD corpus day).map (fun a => lowerStr a.mediaType)).count "blog"
      else 0) = op2BlogCount parseD corpus day := by
    unfold op2BlogCount
    rw [← count_map_eq_countP]
    by_cases hmem : "blog" ∈ ((op2Matched parseD corpus day).map
      (fun a => lowerStr a.mediaType)).dedup
    · rw [if_pos hmem]
    · rw [if_neg hmem,
        List.count_eq_zero.mpr (fun hh => hmem (List.mem_dedup.mpr hh))]
  rw [hn, hb]

/-- Claim C7: for a queried day with no matching news/blog record, Op2
reports the distinct "no articles" outcome rather than two zero counts;
otherwise it reports both counts (an absent category counted as zero)
together with which category leads by the count difference, or a tie
when the two counts are equal — never a forced winner. -/
theorem claim_C7 (parseD : String → Option Instant) (corpus : List Article)
    (day : Nat × Nat × Nat) :
    (op2Matched parseD corpus day = [] →
      handle_article_count parseD corpus day = Op2Outcome.noArticles) ∧
    (op2Matched parseD corpus day ≠ [] →
      handle_article_count parseD corpus day =
        Op2Outcome.report (op2NewsCount parseD corpus day) (op2BlogCount parseD corpus day)
          (if op2BlogCount parseD corpus day < op2NewsCount parseD corpus day then
            Op2Verdict.newsMore
              (op2NewsCount parseD corpus day - op2BlogCount parseD corpus day)
          else if op2NewsCount parseD corpus day < op2BlogCount parseD corpus day then
            Op2Verdict.blogMore
              (op2BlogCount parseD corpus day - op2NewsCount parseD corpus day)
          else Op2Verdict.tie)) ∧
    (op2Matched parseD corpus day ≠ [] →
      op2NewsCount parseD corpus day = op2BlogCount parseD corpus day →
      handle_article_count parseD corpus day =
        Op2Outcome.report (op2NewsCount parseD corpus day) (op2BlogCount parseD corpus day)
          Op2Verdict.tie) := by
  have hmain : op2Matched parseD corpus day ≠ [] →
      handle_article_count parseD corpus day =
        Op2Outcome.report (op2NewsCount parseD corpus day) (op2BlogCount parseD corpus day)
          (if op2BlogCount parseD corpus day < op2NewsCount parseD corpus day then
            Op2Verdict.newsMore
              (op2NewsCount parseD corpus day - op2BlogCount parseD corpus day)
          else if op2NewsCount parseD corpus day < op2BlogCount parseD corpus day then
            Op2Verdict.blogMore
              (op2BlogCount parseD corpus day - op2NewsCount parseD corpus day)
          else Op2Verdict.tie) := by
    intro hm
    have hne : op2Groups parseD corpus day ≠ [] := by
      unfold op2Groups
      rw [Ne, groupCount_eq_nil, List.map_eq_nil_iff]
      exact hm
    unfold handle_article_count
    dsimp only
    rw [if_neg (fun hh => hne (List.isEmpty_iff.mp hh)), op2_fold_counts]
  refine ⟨?_, hmain, ?_⟩
  · intro hm
    have hgz : op2Groups parseD corpus day = [] := by
      unfold op2Groups
      rw [hm]
      rfl
    unfold handle_article_count
    dsimp only
    rw [hgz]
    rfl
  · intro hm heq
    rw [hmain hm, heq]
    simp [lt_irrefl]

def exC7 : List Article :=
  [⟨"1", "", "t", "NEWS", "s", .date ⟨2015, 9, 1, 1⟩⟩,
   ⟨"2", "", "t", "news", "s", .date ⟨2015, 9, 1, 2⟩⟩,
   ⟨"3", "", "t", "news", "s", .date ⟨2015, 9, 1, 3⟩⟩,
   ⟨"4", "", "t", "blog", "s", .date ⟨2015, 9, 1, 4⟩⟩,
   ⟨"5", "", "t", "Blog", "s", .date ⟨2015, 9, 1, 5⟩⟩,
   ⟨"6", "", "t", "blog", "s", .date ⟨2015, 9, 1, 6⟩⟩,
   ⟨"7", "", "t", "news", "s", .date ⟨2015, 9, 2, 1⟩⟩]

theorem claim_C7_witness :
    handle_article_count (fun _ => none) exC7 (2015, 9, 1) =
      Op2Outcome.report 3 3 Op2Verdict.tie :=
  (claim_C7 (fun _ => none) exC7 (2015, 9, 1)).2.2 (by decide) (by decide)
